import Mathlib

/-!
Shallow embedding of the LinkID JS SDK client (`sdk/js/src/client.ts`,
`sdk/js/src/cache.ts`, `sdk/js/src/errors.ts`) in Lean 4, together with
theorems settling the specification claims about it.

Conventions of the embedding:
* JS strings are Lean `String`; absent (`undefined`) string fields are
  `Option String`; the JS truthiness test `x || d` on strings treats both
  `undefined` and `""` as falsy, and on numbers treats both `undefined`
  and `0` as falsy.
* Machine time (`Date.now()`) is passed explicitly as a `Nat` millisecond
  timestamp `now`.
* The HTTP layer (`fetch`) is abstracted as an oracle
  `transport : Nat → FetchOutcome` giving the outcome of each 1-based
  attempt; `response.json()` is modelled by an optional parsed body
  (`none` models a JSON parse failure, which in the source throws a
  platform `SyntaxError`).
* JSON bodies are kept opaque except for the two properties the client
  reads (`error` and `tombstone`).
-/

/-- JS `x || d` for an optional string: `undefined` and `""` are falsy. -/
def jsOrStr (x : Option String) (d : String) : String :=
  match x with
  | none => d
  | some "" => d
  | some s => s

/-- JS `x || d` for an optional number: `undefined` and `0` are falsy. -/
def jsOrNat (x : Option Nat) (d : Nat) : Nat :=
  match x with
  | none => d
  | some 0 => d
  | some n => n

/-- JS truthiness of an optional string (`!x` is `true` exactly here). -/
def jsStrFalsy (x : Option String) : Bool :=
  match x with
  | none => true
  | some "" => true
  | some _ => false

/-- The parts of a parsed JSON response body that the client reads:
the `error` property and the `tombstone` property (kept opaque). -/
structure JsonBody where
  errField : Option String := none
  tombstone : Option String := none
deriving DecidableEq, Repr

/-- Error taxonomy of `errors.ts`, flattened from the class hierarchy into
a closed inductive type.  `timeoutErr` and `responseErr` extend
`NetworkError` in the source (with no `statusCode` set); `baseErr` is a
plain `LinkIDError` carrying only a message and a code; `jsError` stands
for platform exceptions (e.g. the `SyntaxError` thrown by a failed
`response.json()`), which are not `LinkIDError`s. -/
inductive LinkErr where
  | baseErr (message : String) (code : String)
  | notFound (linkId : String) (message : String)
  | withdrawn (linkId : String) (message : String) (tombstone : Option String)
  | validation (message : String)
  | network (message : String) (statusCode : Option Nat)
  | timeoutErr (message : String)
  | responseErr (message : String)
  | authentication (message : String)
  | authorization (message : String)
  | rateLimit (message : String) (retryAfter : Option Nat)
  | cacheErr (message : String)
  | jsError (message : String)
deriving DecidableEq, Repr

/-- `e instanceof NetworkError` in the source: `TimeoutError` and
`ResponseError` are subclasses of `NetworkError`. -/
def LinkErr.isNetwork : LinkErr → Bool
  | .network _ _ => true
  | .timeoutErr _ => true
  | .responseErr _ => true
  | _ => false

/-- The `statusCode` field of a `NetworkError`; `TimeoutError` and
`ResponseError` are constructed without one. -/
def LinkErr.netStatusCode : LinkErr → Option Nat
  | .network _ s => s
  | _ => none

/-- `isRetryableError` from `errors.ts`: the `instanceof` cascade.
For a `NetworkError` (including its subclasses) the source returns
`!error.statusCode || error.statusCode >= 500`, where `!statusCode` is
true for `undefined` and for `0`. -/
def isRetryableError (e : LinkErr) : Bool :=
  if e.isNetwork then
    match e.netStatusCode with
    | none => true
    | some 0 => true
    | some s => decide (500 ≤ s)
  else
    match e with
    | .validation _ => false
    | .authentication _ => false
    | .authorization _ => false
    | .notFound _ _ => false
    | .withdrawn _ _ _ => false
    | _ => true

/-- `handleErrorResponse` from `client.ts`: classify a non-success HTTP
response into a thrown error.  `body` is the result of
`await response.json()` (`none` models the parse failure caught by the
source, which substitutes `{ error: 'Unknown error' }`). -/
def handleErrorResponse (status : Nat) (statusText : String)
    (body : Option JsonBody) (linkId : Option String) : LinkErr :=
  let errorData : JsonBody := body.getD { errField := some "Unknown error" }
  match status with
  | 404 => .notFound (jsOrStr linkId "unknown")
      (jsOrStr errorData.errField "LinkID not found")
  | 410 => .withdrawn (jsOrStr linkId "unknown")
      (jsOrStr errorData.errField "LinkID withdrawn") errorData.tombstone
  | 400 => .validation (jsOrStr errorData.errField "Validation error")
  | 422 => .validation (jsOrStr errorData.errField "Validation error")
  | 401 => .baseErr (jsOrStr errorData.errField "Authentication required") "UNAUTHORIZED"
  | 403 => .baseErr (jsOrStr errorData.errField "Access forbidden") "FORBIDDEN"
  | 429 => .baseErr (jsOrStr errorData.errField "Rate limit exceeded") "RATE_LIMITED"
  | _ => .baseErr
      (jsOrStr errorData.errField ("HTTP " ++ toString status ++ ": " ++ statusText))
      "HTTP_ERROR"

/-!  A miniature regex engine covering exactly the fragment produced by
`MemoryCache.delete`: the source builds `new RegExp(pattern.replace(/\*!/g
with the `!` removed, '.!*'))` and calls `.test(key)` (unanchored, no
requirement to consume the whole key).  In the patterns the client
generates, every `*` of the original pattern becomes the regex atom `.*`,
a literal `.` becomes the single-character wildcard, and every other
character used in cache keys is a regex literal. -/

/-- One compiled regex atom. -/
inductive RAtom where
  | lit (c : Char)
  | dot
  | dotStar
deriving DecidableEq, Repr

/-- Compile one pattern character (after the `*` → `.*` replacement,
a `*` denotes `.*` and a `.` denotes the single-char wildcard). -/
def compileChar (c : Char) : RAtom :=
  if c = '*' then .dotStar
  else if c = '.' then .dot
  else .lit c

/-- Match a compiled atom list against a prefix of `cs` (the rest of the
key may remain unconsumed, as with `RegExp.test`). -/
def matchHere : List RAtom → List Char → Bool
  | [], _ => true
  | .lit _ :: _, [] => false
  | .lit a :: ps, c :: cs => a = c && matchHere ps cs
  | .dot :: _, [] => false
  | .dot :: ps, _ :: cs => matchHere ps cs
  | .dotStar :: ps, cs =>
      (List.range (cs.length + 1)).any (fun i => matchHere ps (cs.drop i))

/-- Unanchored `RegExp.test`: the compiled pattern may match starting at
any position of the key. -/
def regexTest (pattern key : String) : Bool :=
  let atoms := pattern.data.map compileChar
  (List.range (key.data.length + 1)).any (fun i => matchHere atoms (key.data.drop i))

/-- One stored cache entry: the value and its absolute expiry
(millisecond timestamp). -/
structure CacheEntry (α : Type) where
  value : α
  expires : Nat
deriving DecidableEq, Repr

/-- JS `Map.prototype.set` on an insertion-ordered association list:
an existing key is updated in place (keeping its position), a new key is
appended at the end. -/
def mapSet {α : Type} : List (String × α) → String → α → List (String × α)
  | [], k, v => [(k, v)]
  | (k', v') :: rest, k, v =>
      if k' = k then (k, v) :: rest else (k', v') :: mapSet rest k v

/-- JS `Map.prototype.delete`: remove the (first, and under the Map key
uniqueness invariant only) entry with the given key. -/
def mapDelete {α : Type} : List (String × α) → String → List (String × α)
  | [], _ => []
  | (k', v') :: rest, k =>
      if k' = k then rest else (k', v') :: mapDelete rest k

/-- Constructor options of `MemoryCache`. -/
structure CacheOptions where
  maxSize : Option Nat := none
  defaultTTL : Option Nat := none
deriving DecidableEq, Repr

/-- The `MemoryCache` state of `cache.ts`: the backing `Map` (insertion
ordered), the hit/miss counters, and the resolved configuration. -/
structure MemoryCache (α : Type) where
  entries : List (String × CacheEntry α)
  hits : Nat
  misses : Nat
  maxSize : Nat
  defaultTTL : Nat
deriving DecidableEq, Repr

/-- `new MemoryCache(options)`: `maxSize = options.maxSize || 1000`,
`defaultTTL = options.defaultTTL || 3600`, empty map, zero counters. -/
def MemoryCache.init (α : Type) (o : CacheOptions) : MemoryCache α :=
  { entries := []
    hits := 0
    misses := 0
    maxSize := jsOrNat o.maxSize 1000
    defaultTTL := jsOrNat o.defaultTTL 3600 }

/-- `MemoryCache.get`: absent key counts a miss; an entry found with
`now > expires` is deleted, counts a miss and returns `null`; otherwise
counts a hit and returns the stored value. -/
def MemoryCache.get {α : Type} (c : MemoryCache α) (key : String) (now : Nat) :
    Option α × MemoryCache α :=
  match c.entries.find? (fun e => e.1 == key) with
  | none => (none, { c with misses := c.misses + 1 })
  | some item =>
      if now > item.2.expires then
        (none, { c with entries := mapDelete c.entries key, misses := c.misses + 1 })
      else
        (some item.2.value, { c with hits := c.hits + 1 })

/-- `MemoryCache.set`: if the map is at (or beyond) capacity, delete the
first inserted key — but only when that key is truthy, i.e. nonempty
(`if (firstKey)` in the source) — then insert with expiry
`now + (ttl || defaultTTL) * 1000`. -/
def MemoryCache.set {α : Type} (c : MemoryCache α) (key : String) (v : α)
    (ttl : Option Nat) (now : Nat) : MemoryCache α :=
  let entries1 :=
    if c.maxSize ≤ c.entries.length then
      match c.entries with
      | [] => c.entries
      | (k0, _) :: _ => if k0 = "" then c.entries else mapDelete c.entries k0
    else c.entries
  let expires := now + (jsOrNat ttl c.defaultTTL) * 1000
  { c with entries := mapSet entries1 key { value := v, expires := expires } }

/-- `MemoryCache.delete(pattern)`: remove every key matched by the regex
obtained from the pattern by replacing `*` with `.*`. -/
def MemoryCache.deleteMatching {α : Type} (c : MemoryCache α) (pattern : String) :
    MemoryCache α :=
  { c with entries := c.entries.filter (fun e => !(regexTest pattern e.1)) }

/-- `MemoryCache.clear`: drop all entries and reset the counters. -/
def MemoryCache.clear {α : Type} (c : MemoryCache α) : MemoryCache α :=
  { c with entries := [], hits := 0, misses := 0 }

/-- Cache statistics as reported by `getStats`. -/
structure CacheStats where
  hits : Nat
  misses : Nat
  size : Nat
  hitRate : ℚ
deriving DecidableEq, Repr

/-- `MemoryCache.getStats`. -/
def MemoryCache.getStats {α : Type} (c : MemoryCache α) : CacheStats :=
  let total := c.hits + c.misses
  { hits := c.hits
    misses := c.misses
    size := c.entries.length
    hitRate := if 0 < total then (c.hits : ℚ) / (total : ℚ) else 0 }

/-- Resolved client configuration (`this.config` after the constructor of
`LinkIDClient` applied its defaults).  `userAgent`, `headers` and
`validateSSL` only influence outgoing request headers, which the
transport oracle abstracts away, so they are carried but unused. -/
structure ClientConfig where
  resolverUrl : String := "https://resolver.linkid.org"
  apiKey : Option String := none
  timeout : Nat := 10000
  retries : Nat := 3
  caching : Bool := true
  cacheTTL : Nat := 3600
  userAgent : String := "LinkID-Client-JS/1.0.0"
  validateSSL : Bool := true
deriving DecidableEq, Repr

/-- `ResolutionOptions` from `types.ts` (the `headers` field only feeds
the outgoing request and is abstracted with the transport). -/
structure ResolutionOptions where
  format : Option String := none
  language : Option String := none
  version : Option Nat := none
  timestamp : Option String := none
  metadata : Bool := false
  bypassCache : Bool := false
deriving DecidableEq, Repr

/-- `RegistrationRequest` from `types.ts`; only `targetUri` is inspected
by the client (the rest of the payload passes through to the transport).
`none` models an absent or non-string `targetUri`. -/
structure RegistrationRequest where
  targetUri : Option String := none
  mediaType : Option String := none
deriving DecidableEq, Repr

/-- An HTTP response as seen through the `fetch` API surface the client
uses.  `jsonBody = none` models a body on which `response.json()` throws.
The quality header is carried verbatim (no claim inspects the parsed
float). -/
structure HttpResponse where
  ok : Bool
  status : Nat
  statusText : String := ""
  redirected : Bool := false
  url : String := ""
  headerQuality : Option String := none
  headerResolver : Option String := none
  headerCacheControl : Option String := none
  jsonBody : Option JsonBody := none
deriving DecidableEq, Repr

/-- Outcome of one `fetch` call: either a settled response or a thrown
error (connection failure or abort-on-timeout), carrying its message. -/
inductive FetchOutcome where
  | success (r : HttpResponse)
  | failure (message : String)
deriving DecidableEq, Repr

/-- `parts.join(':')` of `generateCacheKey`. -/
def joinColon : List String → String
  | [] => ""
  | [s] => s
  | s :: rest => s ++ ":" ++ joinColon rest

/-- The string rendering of `options.version || ''` inside the join:
an absent version and version `0` (falsy) both render as `""`. -/
def versionPart (v : Option Nat) : String :=
  match v with
  | none => ""
  | some 0 => ""
  | some n => toString n

/-- `generateCacheKey` from `client.ts`. -/
def generateCacheKey (linkId : String) (o : ResolutionOptions) : String :=
  joinColon
    [ "linkid"
    , linkId
    , jsOrStr o.format ""
    , jsOrStr o.language ""
    , versionPart o.version
    , if o.metadata then "1" else "0" ]

/-- Character class of the LinkID validation regex `[A-Za-z0-9._~-]`. -/
def isValidLinkIDChar (c : Char) : Bool :=
  ('A' ≤ c && c ≤ 'Z') || ('a' ≤ c && c ≤ 'z') || ('0' ≤ c && c ≤ '9') ||
  c = '.' || c = '_' || c = '~' || c = '-'

/-- `validateLinkID` from `client.ts`; returns the `ValidationError`
message when validation fails, `none` when the identifier is accepted. -/
def validateLinkID (linkId : String) : Option String :=
  if linkId = "" then some "LinkID must be a non-empty string"
  else if linkId.length < 32 || 64 < linkId.length then
    some "LinkID must be 32-64 characters long"
  else if !(linkId.data.all isValidLinkIDChar) then
    some "LinkID contains invalid characters"
  else none

/-- Scheme characters allowed after the first character of a URL scheme. -/
def isSchemeChar (c : Char) : Bool :=
  c.isAlpha || c.isDigit || c = '+' || c = '-' || c = '.'

/-- Models the platform WHATWG `new URL(s)` constructor called without a
base: it succeeds exactly for absolute URLs — a valid scheme
(`[A-Za-z][A-Za-z0-9+.-]*`) followed by `:`, where the special network
schemes additionally require `//` and a nonempty host.  Any scheme that
parses is accepted; the constructor performs no http/https restriction. -/
def jsURLParses (s : String) : Bool :=
  let cs := s.data
  let scheme := cs.takeWhile (fun c => c ≠ ':')
  let rest := (cs.drop scheme.length).drop 1
  (scheme.length < cs.length) &&
  (match scheme with
   | [] => false
   | c0 :: tail => c0.isAlpha && tail.all isSchemeChar) &&
  (if [ "http", "https", "ws", "wss", "ftp" ].contains
        (String.mk (scheme.map Char.toLower)) then
     match rest with
     | '/' :: '/' :: h :: _ => h ≠ '/'
     | _ => false
   else true)

/-- `validateRegistrationRequest` from `client.ts`: `targetUri` must be a
present, truthy string that the `URL` constructor accepts; note the
source checks URL well-formedness only, not the scheme. -/
def validateRegistrationRequest (r : RegistrationRequest) : Option String :=
  if jsStrFalsy r.targetUri then some "targetUri is required and must be a string"
  else if !(jsURLParses (r.targetUri.getD "")) then some "targetUri must be a valid URL"
  else none

/-- Result of `makeRequest`: the returned response or thrown error, the
number of `fetch` calls made, and the backoff delays (in ms) awaited
between attempts, in order. -/
structure SendResult where
  result : Except LinkErr HttpResponse
  attempts : Nat
  delays : List Nat
deriving Repr

/-- The body of the `for (attempt = 1; attempt <= retries; ...)` loop of
`makeRequest`, with `fuel` the number of remaining iterations.  A settled
response is returned as soon as `response.ok || response.status >= 400`;
otherwise the source retries on `status >= 500` with backoff
`2^(attempt-1)` seconds (a branch that is unreachable, since every such
status already satisfied `status >= 400`), else returns the response.  A
thrown fetch error is retried with the same backoff while attempts
remain; exhausting the loop throws `NetworkError`. -/
def makeRequestGo (retries : Nat) (transport : Nat → FetchOutcome) :
    Nat → Nat → Nat → List Nat → Option String → SendResult
  | 0, _, made, delays, lastError =>
      { result := .error (.network
          ("Request failed after " ++ toString retries ++ " attempts: "
            ++ lastError.getD "undefined") none)
        attempts := made
        delays := delays }
  | fuel + 1, attempt, made, delays, lastError =>
      match transport attempt with
      | .success r =>
          if r.ok || 400 ≤ r.status then
            { result := .ok r, attempts := made + 1, delays := delays }
          else if 500 ≤ r.status && attempt < retries then
            makeRequestGo retries transport fuel (attempt + 1) (made + 1)
              (delays ++ [2 ^ (attempt - 1) * 1000]) lastError
          else
            { result := .ok r, attempts := made + 1, delays := delays }
      | .failure msg =>
          if attempt < retries then
            makeRequestGo retries transport fuel (attempt + 1) (made + 1)
              (delays ++ [2 ^ (attempt - 1) * 1000]) (some msg)
          else
            { result := .error (.network
                ("Request failed after " ++ toString retries ++ " attempts: " ++ msg) none)
              attempts := made + 1
              delays := delays }

/-- `makeRequest` from `client.ts`. -/
def makeRequest (retries : Nat) (transport : Nat → FetchOutcome) : SendResult :=
  makeRequestGo retries transport retries 1 0 [] none

/-- `parseCacheControlHeader`: first `max-age=` occurrence followed by at
least one digit wins; otherwise the configured default TTL. -/
def findMaxAge : List Char → Option Nat
  | [] => none
  | c :: cs =>
      if (c :: cs).take 8 = "max-age=".data then
        let ds := ((c :: cs).drop 8).takeWhile Char.isDigit
        if ds.isEmpty then findMaxAge cs
        else some (ds.foldl (fun n d => n * 10 + (d.toNat - '0'.toNat)) 0)
      else findMaxAge cs

/-- `parseCacheControlHeader` from `client.ts`. -/
def parseCacheControlHeader (header : Option String) (cacheTTL : Nat) : Nat :=
  match header with
  | none => cacheTTL
  | some s =>
      match findMaxAge s.data with
      | some n => n
      | none => cacheTTL

/-- `ResolutionResult` from `types.ts`: the redirect/metadata tagged
union.  The quality header is carried unparsed. -/
inductive ResolutionResult where
  | redirect (uri : String) (linkId : String) (qualityHeader : Option String)
      (cached : Bool) (resolverUsed : String)
  | metadata (data : JsonBody) (linkId : String) (cached : Bool) (resolverUsed : String)
deriving DecidableEq, Repr

/-- The `cached` flag of a result. -/
def ResolutionResult.cached : ResolutionResult → Bool
  | .redirect _ _ _ c _ => c
  | .metadata _ _ c _ => c

/-- Outcome of a `resolve` call: the returned result or raised error, the
cache state afterwards, and the number of network requests issued. -/
structure ResolveOutcome where
  result : Except LinkErr ResolutionResult
  cache : MemoryCache ResolutionResult
  requests : Nat
deriving Repr

/-- `LinkIDClient.resolve`.  Mirrors the source: validate, check the
cache (a hit is returned exactly as stored), issue the request, build the
redirect or metadata result with `cached := false`, store it when caching
is on and the response was ok, and return it.  Note the source never
routes a settled non-ok response to `handleErrorResponse` here: the
`catch` clause only classifies thrown `Response` values, and
`makeRequest` returns responses, it does not throw them. -/
def LinkIDClient.resolve (cfg : ClientConfig) (cache : MemoryCache ResolutionResult)
    (linkId : String) (options : ResolutionOptions)
    (transport : Nat → FetchOutcome) (now : Nat) : ResolveOutcome :=
  match validateLinkID linkId with
  | some msg => { result := .error (.validation msg), cache := cache, requests := 0 }
  | none =>
    let cacheKey := generateCacheKey linkId options
    let checkCache := cfg.caching && !options.bypassCache
    let (hit, cache1) :=
      if checkCache then cache.get cacheKey now else (none, cache)
    match hit with
    | some cachedResult =>
        { result := .ok cachedResult, cache := cache1, requests := 0 }
    | none =>
      let send := makeRequest cfg.retries transport
      match send.result with
      | .error e => { result := .error e, cache := cache1, requests := send.attempts }
      | .ok response =>
        if response.redirected then
          let result : ResolutionResult := .redirect response.url linkId
            response.headerQuality false
            (jsOrStr response.headerResolver cfg.resolverUrl)
          let cache2 :=
            if cfg.caching && response.ok then
              cache1.set cacheKey result
                (some (parseCacheControlHeader response.headerCacheControl cfg.cacheTTL)) now
            else cache1
          { result := .ok result, cache := cache2, requests := send.attempts }
        else
          match response.jsonBody with
          | none =>
              { result := .error (.jsError "SyntaxError: unexpected response body")
                cache := cache1, requests := send.attempts }
          | some data =>
            let result : ResolutionResult := .metadata data linkId false
              (jsOrStr response.headerResolver cfg.resolverUrl)
            let cache2 :=
              if cfg.caching && response.ok then
                cache1.set cacheKey result
                  (some (parseCacheControlHeader response.headerCacheControl cfg.cacheTTL)) now
              else cache1
            { result := .ok result, cache := cache2, requests := send.attempts }

/-- `LinkIDClient.register`.  Returns the raised error or the parsed
creation payload, with the number of network requests issued. -/
def LinkIDClient.register (cfg : ClientConfig) (request : RegistrationRequest)
    (transport : Nat → FetchOutcome) : Except LinkErr JsonBody × Nat :=
  match validateRegistrationRequest request with
  | some msg => (.error (.validation msg), 0)
  | none =>
    if jsStrFalsy cfg.apiKey then
      (.error (.validation "API key required for registration"), 0)
    else
      let send := makeRequest cfg.retries transport
      match send.result with
      | .error e => (.error e, send.attempts)
      | .ok response =>
        if !response.ok then
          (.error (handleErrorResponse response.status response.statusText
            response.jsonBody none), send.attempts)
        else
          match response.jsonBody with
          | none => (.error (.jsError "SyntaxError: unexpected response body"), send.attempts)
          | some b => (.ok b, send.attempts)

/-- Outcome of an `update`/`withdraw` call. -/
structure WriteOutcome where
  result : Except LinkErr Unit
  cache : MemoryCache ResolutionResult
  requests : Nat
deriving Repr

/-- `LinkIDClient.update` (the request payload itself flows only into the
transport).  On a non-ok response the error classifier raises; on success
the client deletes the cache pattern `linkid:{id}:*` when caching is
enabled. -/
def LinkIDClient.update (cfg : ClientConfig) (cache : MemoryCache ResolutionResult)
    (linkId : String) (transport : Nat → FetchOutcome) : WriteOutcome :=
  match validateLinkID linkId with
  | some msg => { result := .error (.validation msg), cache := cache, requests := 0 }
  | none =>
    if jsStrFalsy cfg.apiKey then
      { result := .error (.validation "API key required for updates")
        cache := cache, requests := 0 }
    else
      let send := makeRequest cfg.retries transport
      match send.result with
      | .error e => { result := .error e, cache := cache, requests := send.attempts }
      | .ok response =>
        if !response.ok then
          { result := .error (handleErrorResponse response.status response.statusText
              response.jsonBody (some linkId))
            cache := cache, requests := send.attempts }
        else
          let cache2 :=
            if cfg.caching then cache.deleteMatching ("linkid:" ++ linkId ++ ":*")
            else cache
          { result := .ok (), cache := cache2, requests := send.attempts }

/-- `LinkIDClient.withdraw`: identical control flow to `update` (only the
HTTP method, the error message for the missing API key, and the body
differ, none of which the embedding's oracle distinguishes). -/
def LinkIDClient.withdraw (cfg : ClientConfig) (cache : MemoryCache ResolutionResult)
    (linkId : String) (transport : Nat → FetchOutcome) : WriteOutcome :=
  match validateLinkID linkId with
  | some msg => { result := .error (.validation msg), cache := cache, requests := 0 }
  | none =>
    if jsStrFalsy cfg.apiKey then
      { result := .error (.validation "API key required for withdrawal")
        cache := cache, requests := 0 }
    else
      let send := makeRequest cfg.retries transport
      match send.result with
      | .error e => { result := .error e, cache := cache, requests := send.attempts }
      | .ok response =>
        if !response.ok then
          { result := .error (handleErrorResponse response.status response.statusText
              response.jsonBody (some linkId))
            cache := cache, requests := send.attempts }
        else
          let cache2 :=
            if cfg.caching then cache.deleteMatching ("linkid:" ++ linkId ++ ":*")
            else cache
          { result := .ok (), cache := cache2, requests := send.attempts }

/-! Concrete fixtures used by the theorems and witnesses below. -/

/-- A syntactically valid 32-character identifier. -/
def sampleId : String := "abcdefghijklmnopqrstuvwxyz012345"

/-- A plain HTTP 500 response. -/
def resp500 : HttpResponse :=
  { ok := false, status := 500, statusText := "Internal Server Error" }

/-- An HTTP 404 response with a JSON error body. -/
def notFoundResp : HttpResponse :=
  { ok := false, status := 404, statusText := "Not Found"
    jsonBody := some { errField := some "not found" } }

/-- A successful 200 metadata response with an (opaque) JSON body. -/
def okEmptyResp : HttpResponse :=
  { ok := true, status := 200, jsonBody := some {} }

/-- A fresh default cache for resolution results. -/
def emptyCache : MemoryCache ResolutionResult := MemoryCache.init _ {}

/-- First `resolve` call of the double-resolution scenario: default
config, fresh cache, successful metadata response, at time 1000ms. -/
def firstResolve : ResolveOutcome :=
  LinkIDClient.resolve {} emptyCache sampleId {} (fun _ => .success okEmptyResp) 1000

/-- Second `resolve` call, 1s later (far within the 3600s TTL), with a
transport that would fail: any network request would surface an error. -/
def secondResolve : ResolveOutcome :=
  LinkIDClient.resolve {} firstResolve.cache sampleId {} (fun _ => .failure "network down") 2000

/-- A configuration with an API key (enabling write operations). -/
def keyedConfig : ClientConfig := { apiKey := some "key" }

/-- A cache holding one entry that expired at time 500ms. -/
def expiredCacheFix : MemoryCache Nat :=
  { entries := [("k", { value := 7, expires := 500 })]
    hits := 0, misses := 0, maxSize := 1000, defaultTTL := 3600 }

/-- One abstract cache operation, for stating invariants over operation
sequences. -/
inductive CacheOp (α : Type) where
  | get (key : String) (now : Nat)
  | set (key : String) (v : α) (ttl : Option Nat) (now : Nat)
  | del (pattern : String)
  | clear
deriving DecidableEq, Repr

/-- Apply one operation to a cache (dropping `get`'s returned value). -/
def applyOp {α : Type} (c : MemoryCache α) : CacheOp α → MemoryCache α
  | .get k now => (c.get k now).2
  | .set k v ttl now => c.set k v ttl now
  | .del p => c.deleteMatching p
  | .clear => c.clear

/-- Apply a sequence of operations from left to right. -/
def applyOps {α : Type} (c : MemoryCache α) : List (CacheOp α) → MemoryCache α
  | [] => c
  | op :: ops => applyOps (applyOp c op) ops

/-- The constraint under which the capacity bound is provable: `set` is
never called with the empty-string key (the source's eviction guard
`if (firstKey)` skips eviction when the oldest key is `""`). -/
def opKeyNonempty {α : Type} : CacheOp α → Bool
  | .set k _ _ _ => !(k == "")
  | _ => true

/-- The negotiated-variant normal form that actually determines the cache
key: `format`/`language` after JS falsy collapse, the rendered version
component, and the metadata flag. -/
def normOptions (o : ResolutionOptions) : String × String × String × Bool :=
  (jsOrStr o.format "", jsOrStr o.language "", versionPart o.version, o.metadata)

/-- All three string components of the negotiated variant are free of the
`:` separator. -/
def optionsColonFree (o : ResolutionOptions) : Bool :=
  (jsOrStr o.format "").data.all (fun c => c ≠ ':') &&
  (jsOrStr o.language "").data.all (fun c => c ≠ ':') &&
  (versionPart o.version).data.all (fun c => c ≠ ':')

/-- C1: with a transport that answers every attempt with an HTTP 404
carrying a JSON error body, `resolve` does NOT raise `NotFoundError`: it
returns a `metadata` result wrapping the error body, after exactly one
network request.  The classifier itself would produce the not-found error
carrying the identifier (third conjunct), but `resolve` never routes
settled non-ok responses to it. -/
theorem resolve_404_returns_metadata_not_notFound :
    (LinkIDClient.resolve {} emptyCache sampleId {}
        (fun _ => .success notFoundResp) 0).result
      = .ok (.metadata { errField := some "not found" } sampleId false
          "https://resolver.linkid.org") ∧
    (LinkIDClient.resolve {} emptyCache sampleId {}
        (fun _ => .success notFoundResp) 0).requests = 1 ∧
    handleErrorResponse 404 "Not Found" (some { errField := some "not found" })
        (some sampleId)
      = .notFound sampleId "not found" := by
  refine ⟨rfl, rfl, rfl⟩

/-- C2: `makeRequest` with `retries = 3` and an HTTP 500 on every attempt
returns the 500 response after exactly ONE attempt with no backoff (the
`status >= 500` retry branch is dead code, shadowed by the
`status >= 400` early return).  Thrown network failures, by contrast, are
retried 3 times with 1s and 2s backoff and end in `NetworkError`; a 404
response is likewise returned on the first attempt. -/
theorem makeRequest_500_returned_first_attempt :
    (makeRequest 3 (fun _ => .success resp500)).result = .ok resp500 ∧
    (makeRequest 3 (fun _ => .success resp500)).attempts = 1 ∧
    (makeRequest 3 (fun _ => .success resp500)).delays = [] ∧
    (makeRequest 3 (fun _ => .failure "connection reset")).attempts = 3 ∧
    (makeRequest 3 (fun _ => .failure "connection reset")).delays = [1000, 2000] ∧
    (makeRequest 3 (fun _ => .failure "connection reset")).result
      = .error (.network "Request failed after 3 attempts: connection reset" none) ∧
    (makeRequest 3 (fun _ => .success notFoundResp)).attempts = 1 := by
  refine ⟨rfl, rfl, rfl, rfl, rfl, rfl, rfl⟩

/-- C3: in the double-resolution scenario (identical identifier and
options, caching enabled, second call within TTL) the second call issues
zero network requests but returns the stored result UNCHANGED — its
`cached` flag is `false`, not `true`: the source returns the cache hit
as-is and stores results with `cached: false`. -/
theorem resolve_cache_hit_not_marked_cached :
    secondResolve.requests = 0 ∧
    secondResolve.result
      = .ok (.metadata {} sampleId false "https://resolver.linkid.org") ∧
    (∀ r, secondResolve.result = .ok r → r.cached = false) := by
  refine ⟨rfl, rfl, ?_⟩
  intro r hr
  have : r = .metadata {} sampleId false "https://resolver.linkid.org" := by
    have h : secondResolve.result = .ok (.metadata {} sampleId false
        "https://resolver.linkid.org") := rfl
    rw [h] at hr
    exact (Except.ok.injEq _ _ ▸ hr.symm : _)
  rw [this]
  rfl

/-- C4: the error classifier maps 401, 403 and 429 to the GENERIC
`LinkIDError` with codes `UNAUTHORIZED` / `FORBIDDEN` / `RATE_LIMITED` —
not to the typed `AuthenticationError` / `AuthorizationError` /
`RateLimitError` classes defined in `errors.ts` (and the 429 error
carries no retry-after hint: the generic class has no such field).
Consequently `isRetryableError` treats the produced 401 error as
retryable, although it classifies genuine authentication errors as not
retryable. -/
theorem handleErrorResponse_401_403_429_generic :
    handleErrorResponse 401 "" (some {}) none
      = .baseErr "Authentication required" "UNAUTHORIZED" ∧
    handleErrorResponse 403 "" (some {}) none
      = .baseErr "Access forbidden" "FORBIDDEN" ∧
    handleErrorResponse 429 "" (some {}) none
      = .baseErr "Rate limit exceeded" "RATE_LIMITED" ∧
    isRetryableError (handleErrorResponse 401 "" (some {}) none) = true ∧
    isRetryableError (.authentication "Authentication failed") = false := by
  refine ⟨rfl, rfl, rfl, rfl, rfl⟩

/-- C9 counterexample: a `NetworkError` carrying a 4xx status code is NOT
retryable, refuting "isRetryable returns true for every NetworkError". -/
theorem isRetryable_false_on_4xx_networkError :
    isRetryableError (.network "HTTP 404" (some 404)) = false := by
  rfl

/-- C9 (amended): `isRetryable` is true for a `NetworkError` whose status
code is absent (or the falsy 0) or at least 500, false for one carrying a
positive status below 500; true for timeouts; false for the
identifier-specific errors (not-found, withdrawn) and for validation,
authentication and authorization errors. -/
theorem isRetryableError_classification :
    (∀ msg, isRetryableError (.network msg none) = true) ∧
    (∀ msg, isRetryableError (.network msg (some 0)) = true) ∧
    (∀ msg s, 0 < s → isRetryableError (.network msg (some s)) = decide (500 ≤ s)) ∧
    (∀ msg, isRetryableError (.timeoutErr msg) = true) ∧
    (∀ i msg, isRetryableError (.notFound i msg) = false) ∧
    (∀ i msg t, isRetryableError (.withdrawn i msg t) = false) ∧
    (∀ msg, isRetryableError (.validation msg) = false) ∧
    (∀ msg, isRetryableError (.authentication msg) = false) ∧
    (∀ msg, isRetryableError (.authorization msg) = false) := by
  refine ⟨fun _ => rfl, fun _ => rfl, ?_, fun _ => rfl, fun _ _ => rfl,
    fun _ _ _ => rfl, fun _ => rfl, fun _ => rfl, fun _ => rfl⟩
  intro msg s hs
  match s, hs with
  | s + 1, _ => rfl

/-- C9 witness: the amended classification applied at a concrete 502
`NetworkError`. -/
theorem isRetryableError_classification_witness :
    isRetryableError (.network "bad gateway" (some 502)) = true := by
  have h := isRetryableError_classification.2.2.1 "bad gateway" 502 (by decide)
  exact h.trans (by decide)

/-- C7 counterexample: the options `{version: 0}` and `{}` differ in a
negotiated option yet derive the SAME cache key (JS renders the falsy
version 0 as the empty component), refuting collision-freeness over
negotiated variants. -/
theorem generateCacheKey_version_zero_collision :
    generateCacheKey sampleId { version := some 0 }
      = generateCacheKey sampleId ({} : ResolutionOptions) ∧
    ({ version := some 0 } : ResolutionOptions) ≠ ({} : ResolutionOptions) := by
  exact ⟨rfl, by decide⟩

/-- C10 counterexample: with `maxSize = 1`, setting key `""` and then key
`"a"` leaves TWO entries — the eviction guard `if (firstKey)` skips
eviction because the oldest key `""` is falsy, so the size exceeds the
configured maximum. -/
theorem memoryCache_capacity_exceeded_on_empty_key :
    (((MemoryCache.init Nat { maxSize := some 1 }).set "" 1 none 0).set
        "a" 2 none 0).entries.length = 2 ∧
    (MemoryCache.init Nat { maxSize := some 1 }).maxSize = 1 := by
  exact ⟨rfl, rfl⟩


/-- Deleting a key that `find?` locates shortens the list by exactly one. -/
lemma mapDelete_length_of_find {β : Type} (key : String) :
    ∀ (l : List (String × β)) (kv : String × β),
      l.find? (fun e => e.1 == key) = some kv →
      (mapDelete l key).length + 1 = l.length := by
  intro l
  induction l with
  | nil => intro kv h; simp [List.find?] at h
  | cons hd tl ih =>
    intro kv h
    obtain ⟨k', v'⟩ := hd
    by_cases hk : k' = key
    · simp [mapDelete, hk]
    · have hk2 : ((k', v').1 == key) = false := by simpa using hk
      rw [List.find?_cons, hk2] at h
      simp only [mapDelete, if_neg hk, List.length_cons]
      rw [ih kv h]

/-- C5: an expired entry is never served: a `get` that finds an entry with
`now` strictly past its expiry returns a miss, deletes the entry (so the
reported `size` drops by one) and increments the miss counter; conversely
any value `get` returns comes from an entry whose expiry is at least
`now`. -/
theorem memoryCache_get_expired_purged {α : Type} (c : MemoryCache α)
    (key : String) (now : Nat) :
    (∀ kv, c.entries.find? (fun e => e.1 == key) = some kv → now > kv.2.expires →
        (c.get key now).1 = none ∧
        (c.get key now).2.entries = mapDelete c.entries key ∧
        (c.get key now).2.misses = c.misses + 1 ∧
        (c.get key now).2.getStats.size + 1 = c.getStats.size) ∧
    (∀ v, (c.get key now).1 = some v →
        ∃ kv, c.entries.find? (fun e => e.1 == key) = some kv ∧
          kv.2.value = v ∧ now ≤ kv.2.expires) := by
  constructor
  · intro kv hfind hexp
    simp only [MemoryCache.get, hfind]
    rw [if_pos hexp]
    refine ⟨rfl, rfl, rfl, ?_⟩
    show (mapDelete c.entries key).length + 1 = c.entries.length
    exact mapDelete_length_of_find key c.entries kv hfind
  · intro v hv
    cases hfind : c.entries.find? (fun e => e.1 == key) with
    | none =>
      simp only [MemoryCache.get, hfind] at hv
      simp at hv
    | some kv =>
      simp only [MemoryCache.get, hfind] at hv
      by_cases hexp : now > kv.2.expires
      · rw [if_pos hexp] at hv
        simp at hv
      · rw [if_neg hexp] at hv
        simp only at hv
        refine ⟨kv, rfl, ?_, Nat.not_lt.mp hexp⟩
        exact Option.some.inj hv

/-- C5 witness: the expired-entry behavior at the concrete fixture cache
(entry expired at 500ms, looked up at 501ms). -/
theorem memoryCache_get_expired_purged_witness :
    (expiredCacheFix.get "k" 501).1 = none ∧
    (expiredCacheFix.get "k" 501).2.entries = mapDelete expiredCacheFix.entries "k" ∧
    (expiredCacheFix.get "k" 501).2.misses = expiredCacheFix.misses + 1 ∧
    (expiredCacheFix.get "k" 501).2.getStats.size + 1 = expiredCacheFix.getStats.size :=
  (memoryCache_get_expired_purged expiredCacheFix "k" 501).1
    ("k", { value := 7, expires := 500 }) (by decide) (by decide)

/-- `mapSet` grows the list by at most one entry. -/
lemma mapSet_length_le {β : Type} (k : String) (v : β) :
    ∀ l : List (String × β), (mapSet l k v).length ≤ l.length + 1 := by
  intro l
  induction l with
  | nil => simp [mapSet]
  | cons hd tl ih =>
    obtain ⟨k', v'⟩ := hd
    by_cases h : k' = k
    · simp [mapSet, h]
    · simp only [mapSet, if_neg h, List.length_cons]
      exact Nat.succ_le_succ ih

/-- Every entry of `mapSet l k v` is the new pair or was already in `l`. -/
lemma mem_mapSet {β : Type} (k : String) (v : β) :
    ∀ (l : List (String × β)) e, e ∈ mapSet l k v → e = (k, v) ∨ e ∈ l := by
  intro l
  induction l with
  | nil => intro e he; simpa [mapSet] using he
  | cons hd tl ih =>
    intro e he
    obtain ⟨k', v'⟩ := hd
    by_cases h : k' = k
    · simp only [mapSet, if_pos h] at he
      rcases List.mem_cons.mp he with h1 | h1
      · exact Or.inl h1
      · exact Or.inr (List.mem_cons_of_mem _ h1)
    · simp only [mapSet, if_neg h] at he
      rcases List.mem_cons.mp he with h1 | h1
      · exact Or.inr (h1 ▸ List.mem_cons_self _ _)
      · rcases ih e h1 with h2 | h2
        · exact Or.inl h2
        · exact Or.inr (List.mem_cons_of_mem _ h2)

/-- `mapDelete` never grows the list. -/
lemma mapDelete_length_le {β : Type} (k : String) :
    ∀ l : List (String × β), (mapDelete l k).length ≤ l.length := by
  intro l
  induction l with
  | nil => simp [mapDelete]
  | cons hd tl ih =>
    obtain ⟨k', v'⟩ := hd
    by_cases h : k' = k
    · simp [mapDelete, h, Nat.le_succ_of_le]
    · simp only [mapDelete, if_neg h, List.length_cons]
      exact Nat.succ_le_succ ih

/-- `mapDelete` only removes entries. -/
lemma mem_mapDelete {β : Type} (k : String) :
    ∀ (l : List (String × β)) e, e ∈ mapDelete l k → e ∈ l := by
  intro l
  induction l with
  | nil => intro e he; simp [mapDelete] at he
  | cons hd tl ih =>
    intro e he
    obtain ⟨k', v'⟩ := hd
    by_cases h : k' = k
    · simp only [mapDelete, if_pos h] at he
      exact List.mem_cons_of_mem _ he
    · simp only [mapDelete, if_neg h] at he
      rcases List.mem_cons.mp he with h1 | h1
      · exact h1 ▸ List.mem_cons_self _ _
      · exact List.mem_cons_of_mem _ (ih e h1)

/-- Every cache operation leaves the configured maximum unchanged. -/
lemma applyOp_maxSize {α : Type} (c : MemoryCache α) (op : CacheOp α) :
    (applyOp c op).maxSize = c.maxSize := by
  cases op with
  | get k now =>
    cases hfind : c.entries.find? (fun e => e.1 == k) with
    | none => simp [applyOp, MemoryCache.get, hfind]
    | some kv =>
      simp only [applyOp, MemoryCache.get, hfind]
      by_cases hexp : now > kv.2.expires
      · rw [if_pos hexp]
      · rw [if_neg hexp]
  | set k v ttl now => rfl
  | del p => rfl
  | clear => rfl

/-- One cache operation with a nonempty `set` key preserves the capacity
bound and the nonempty-key property of stored entries. -/
lemma applyOp_bound {α : Type} (c : MemoryCache α) (op : CacheOp α)
    (hop : opKeyNonempty op = true) (hmax : 1 ≤ c.maxSize)
    (hlen : c.entries.length ≤ c.maxSize)
    (hkeys : ∀ e ∈ c.entries, e.1 ≠ "") :
    (applyOp c op).entries.length ≤ c.maxSize ∧
    (∀ e ∈ (applyOp c op).entries, e.1 ≠ "") := by
  cases op with
  | get k now =>
    cases hfind : c.entries.find? (fun e => e.1 == k) with
    | none =>
      simp only [applyOp, MemoryCache.get, hfind]
      exact ⟨hlen, hkeys⟩
    | some kv =>
      simp only [applyOp, MemoryCache.get, hfind]
      by_cases hexp : now > kv.2.expires
      · rw [if_pos hexp]
        refine ⟨le_trans (mapDelete_length_le k c.entries) hlen, ?_⟩
        intro e he
        exact hkeys e (mem_mapDelete k c.entries e he)
      · rw [if_neg hexp]
        exact ⟨hlen, hkeys⟩
  | set k v ttl now =>
    have hk : k ≠ "" := by simpa [opKeyNonempty] using hop
    by_cases hcap : c.maxSize ≤ c.entries.length
    · cases hent : c.entries with
      | nil =>
        exfalso
        rw [hent] at hcap
        simp only [List.length_nil] at hcap
        omega
      | cons hd tl =>
        obtain ⟨k0, e0⟩ := hd
        have hcap2 : c.maxSize ≤ ((k0, e0) :: tl).length := by rw [← hent]; exact hcap
        have hk0 : k0 ≠ "" := hkeys (k0, e0) (by rw [hent]; exact List.mem_cons_self _ _)
        have hdel : mapDelete ((k0, e0) :: tl) k0 = tl := by simp [mapDelete]
        have hset : (applyOp c (CacheOp.set k v ttl now)).entries
            = mapSet tl k { value := v, expires := now + jsOrNat ttl c.defaultTTL * 1000 } := by
          simp only [applyOp, MemoryCache.set, hent]
          rw [if_pos hcap2]
          simp only [if_neg hk0, hdel]
        rw [hset]
        constructor
        · have h1 := mapSet_length_le k
            ({ value := v, expires := now + jsOrNat ttl c.defaultTTL * 1000 } : CacheEntry α) tl
          have h2 : tl.length + 1 ≤ c.maxSize := by
            rw [hent] at hlen
            simpa using hlen
          omega
        · intro e he
          rcases mem_mapSet _ _ tl e he with h1 | h1
          · rw [h1]; exact hk
          · exact hkeys e (by rw [hent]; exact List.mem_cons_of_mem _ h1)
    · have hset : (applyOp c (CacheOp.set k v ttl now)).entries
          = mapSet c.entries k { value := v, expires := now + jsOrNat ttl c.defaultTTL * 1000 } := by
        simp only [applyOp, MemoryCache.set]
        rw [if_neg hcap]
      rw [hset]
      constructor
      · have h1 := mapSet_length_le k
          ({ value := v, expires := now + jsOrNat ttl c.defaultTTL * 1000 } : CacheEntry α) c.entries
        omega
      · intro e he
        rcases mem_mapSet _ _ c.entries e he with h1 | h1
        · rw [h1]; exact hk
        · exact hkeys e h1
  | del p =>
    refine ⟨?_, ?_⟩
    · show (c.entries.filter _).length ≤ c.maxSize
      exact le_trans (List.length_filter_le _ _) hlen
    · intro e he
      exact hkeys e (List.mem_of_mem_filter he)
  | clear =>
    refine ⟨?_, ?_⟩
    · show ([] : List (String × CacheEntry α)).length ≤ c.maxSize
      simp
    · intro e he
      simp only [applyOp, MemoryCache.clear] at he
      cases he

/-- C10 (amended): starting from a cache within capacity whose stored
keys are all nonempty, any sequence of operations whose `set` keys are
all nonempty keeps the number of entries at or below the configured
`maxSize`; and a `set` at capacity whose oldest stored key is nonempty
first evicts that oldest-inserted entry, then inserts. -/
theorem memoryCache_size_bounded {α : Type} (c : MemoryCache α)
    (ops : List (CacheOp α))
    (hmax : 1 ≤ c.maxSize) (hlen : c.entries.length ≤ c.maxSize)
    (hkeys : ∀ e ∈ c.entries, e.1 ≠ "")
    (hops : ∀ op ∈ ops, opKeyNonempty op = true) :
    (applyOps c ops).entries.length ≤ c.maxSize ∧
    (∀ k0 e0 tl key v ttl now, c.entries = (k0, e0) :: tl →
        c.maxSize ≤ c.entries.length → k0 ≠ "" →
        (c.set key v ttl now).entries
          = mapSet tl key { value := v, expires := now + jsOrNat ttl c.defaultTTL * 1000 }) := by
  constructor
  · induction ops generalizing c with
    | nil => exact hlen
    | cons op ops ih =>
      have hop := hops op (List.mem_cons_self _ _)
      have hms := applyOp_maxSize c op
      have hb := applyOp_bound c op hop hmax hlen hkeys
      have hrec := ih (applyOp c op) (hms.symm ▸ hmax) (hms.symm ▸ hb.1) hb.2
        (fun o ho => hops o (List.mem_cons_of_mem _ ho))
      show (applyOps (applyOp c op) ops).entries.length ≤ c.maxSize
      exact le_trans hrec (le_of_eq hms)
  · intro k0 e0 tl key v ttl now hent hcap hk0
    have hcap2 : c.maxSize ≤ ((k0, e0) :: tl).length := by rw [← hent]; exact hcap
    have hdel : mapDelete ((k0, e0) :: tl) k0 = tl := by simp [mapDelete]
    simp only [MemoryCache.set, hent]
    rw [if_pos hcap2]
    simp only [if_neg hk0, hdel]

/-- C10 witness: the capacity bound applied to a concrete run of three
operations on a fresh default cache. -/
theorem memoryCache_size_bounded_witness :
    (applyOps (MemoryCache.init Nat {})
        [CacheOp.set "a" 1 none 0, CacheOp.set "b" 2 none 0,
         CacheOp.get "a" 5]).entries.length
      ≤ (MemoryCache.init Nat {}).maxSize :=
  (memoryCache_size_bounded (MemoryCache.init Nat {})
    [CacheOp.set "a" 1 none 0, CacheOp.set "b" 2 none 0, CacheOp.get "a" 5]
    (by decide) (by decide) (by decide) (by decide)).1

/-- A compiled literal character (anything but the `*` of the pattern
tail) matches itself. -/
lemma matchHere_compile_self (c : Char) (hc : c ≠ '*') (ps : List RAtom) (cs : List Char) :
    matchHere (compileChar c :: ps) (c :: cs) = matchHere ps cs := by
  unfold compileChar
  rw [if_neg hc]
  by_cases hdot : c = '.'
  · rw [if_pos hdot]
    rfl
  · rw [if_neg hdot]
    simp [matchHere]

/-- A star-free character list, compiled, followed by the `.*` atom,
matches any extension of itself. -/
lemma matchHere_lits {p : List Char} (rest : List Char) (hp : '*' ∉ p) :
    matchHere (p.map compileChar ++ [RAtom.dotStar]) (p ++ rest) = true := by
  induction p with
  | nil =>
    simp only [List.map_nil, List.nil_append, matchHere]
    apply List.any_eq_true.mpr
    exact ⟨0, List.mem_range.mpr (Nat.succ_pos _), rfl⟩
  | cons c p ih =>
    have hc : c ≠ '*' := fun h => hp (h ▸ List.mem_cons_self _ _)
    have hp2 : '*' ∉ p := fun h => hp (List.mem_cons_of_mem _ h)
    simp only [List.map_cons, List.cons_append]
    rw [matchHere_compile_self c hc]
    exact ih hp2

/-- `RegExp.test` succeeds whenever the pattern is a star-free body
followed by a final `*` and the key extends that body. -/
lemma regexTest_of_data (pat key : String) (p rest : List Char)
    (hpat : pat.data = p ++ ['*']) (hkey : key.data = p ++ rest) (hp : '*' ∉ p) :
    regexTest pat key = true := by
  simp only [regexTest, hpat, hkey]
  apply List.any_eq_true.mpr
  refine ⟨0, List.mem_range.mpr (Nat.succ_pos _), ?_⟩
  simp only [List.drop_zero, List.map_append, List.map_cons, List.map_nil]
  rw [show compileChar '*' = RAtom.dotStar from rfl]
  exact matchHere_lits rest hp

/-- After filtering out every key the pattern matches, a matched key can
no longer be found. -/
lemma find?_filter_eq_none {β : Type} (l : List (String × β)) (pat k : String)
    (hk : regexTest pat k = true) :
    (l.filter (fun e => !(regexTest pat e.1))).find? (fun e => e.1 == k) = none := by
  cases hfind : (l.filter (fun e => !(regexTest pat e.1))).find? (fun e => e.1 == k) with
  | none => rfl
  | some e =>
    exfalso
    have h1 := List.find?_some hfind
    have h2 := List.mem_of_find?_eq_some hfind
    have h3 : (!(regexTest pat e.1)) = true := (List.mem_filter.mp h2).2
    have h4 : e.1 = k := by simpa using h1
    rw [h4, hk] at h3
    simp at h3

/-- A validated identifier consists only of the allowed characters. -/
lemma validateLinkID_all_valid (id : String) (h : validateLinkID id = none) :
    id.data.all isValidLinkIDChar = true := by
  unfold validateLinkID at h
  split_ifs at h
  simp_all

/-- The star character never occurs in the body of the invalidation
pattern built from a validated identifier. -/
lemma star_not_in_pattern_body (id : String) (h : validateLinkID id = none) :
    '*' ∉ ("linkid:".data ++ id.data ++ [':']) := by
  intro hmem
  rcases List.mem_append.mp hmem with h1 | h1
  · rcases List.mem_append.mp h1 with h2 | h2
    · exact absurd h2 (by decide)
    · have h3 := List.all_eq_true.mp (validateLinkID_all_valid id h) '*' h2
      exact absurd h3 (by decide)
  · exact absurd h1 (by decide)

/-- The data of the invalidation pattern splits as body-plus-star. -/
lemma update_pattern_data (id : String) :
    ("linkid:" ++ id ++ ":*").data = ("linkid:".data ++ id.data ++ [':']) ++ ['*'] := by
  simp only [String.data_append, List.append_assoc]
  rfl

/-- The data of a generated cache key extends the invalidation pattern
body. -/
lemma generateCacheKey_data_split (id : String) (o : ResolutionOptions) :
    (generateCacheKey id o).data
      = ("linkid:".data ++ id.data ++ [':'])
        ++ (joinColon [jsOrStr o.format "", jsOrStr o.language "", versionPart o.version,
              if o.metadata then "1" else "0"]).data := by
  show (joinColon ["linkid", id, jsOrStr o.format "", jsOrStr o.language "",
      versionPart o.version, if o.metadata then "1" else "0"]).data = _
  show ("linkid" ++ ":" ++ (id ++ ":" ++ joinColon [jsOrStr o.format "",
      jsOrStr o.language "", versionPart o.version,
      if o.metadata then "1" else "0"])).data = _
  simp only [String.data_append, List.append_assoc]
  rfl

/-- After a pattern-delete of `linkid:{id}:*` (for a validated `id`), no
cache key generated for `id` — under any options — can be found, so every
lookup misses. -/
lemma get_after_invalidate (id : String) (hval : validateLinkID id = none)
    (c : MemoryCache ResolutionResult) (opts : ResolutionOptions) (now : Nat) :
    ((c.deleteMatching ("linkid:" ++ id ++ ":*")).get
        (generateCacheKey id opts) now).1 = none := by
  have htest : regexTest ("linkid:" ++ id ++ ":*") (generateCacheKey id opts) = true :=
    regexTest_of_data _ _ ("linkid:".data ++ id.data ++ [':']) _
      (update_pattern_data id) (generateCacheKey_data_split id opts)
      (star_not_in_pattern_body id hval)
  have hfind := find?_filter_eq_none c.entries ("linkid:" ++ id ++ ":*")
    (generateCacheKey id opts) htest
  simp only [MemoryCache.deleteMatching, MemoryCache.get, hfind]

/-- A successful `update` implies the identifier validated, an API key
was present, and the response was ok. -/
lemma update_ok_conditions (cfg : ClientConfig) (cache : MemoryCache ResolutionResult)
    (linkId : String) (transport : Nat → FetchOutcome)
    (hok : (LinkIDClient.update cfg cache linkId transport).result = .ok ()) :
    validateLinkID linkId = none ∧ jsStrFalsy cfg.apiKey = false ∧
      ∃ r, (makeRequest cfg.retries transport).result = .ok r ∧ r.ok = true := by
  cases hval : validateLinkID linkId with
  | some m =>
    have hres : (LinkIDClient.update cfg cache linkId transport).result
        = .error (.validation m) := by
      simp [LinkIDClient.update, hval]
    rw [hres] at hok
    exact Except.noConfusion hok
  | none =>
    cases hkey : jsStrFalsy cfg.apiKey with
    | true =>
      have hres : (LinkIDClient.update cfg cache linkId transport).result
          = .error (.validation "API key required for updates") := by
        simp [LinkIDClient.update, hval, hkey]
      rw [hres] at hok
      exact Except.noConfusion hok
    | false =>
      cases hsend : (makeRequest cfg.retries transport).result with
      | error e =>
        have hres : (LinkIDClient.update cfg cache linkId transport).result = .error e := by
          simp [LinkIDClient.update, hval, hkey, hsend]
        rw [hres] at hok
        exact Except.noConfusion hok
      | ok r =>
        cases hro : r.ok with
        | false =>
          have hres : (LinkIDClient.update cfg cache linkId transport).result
              = .error (handleErrorResponse r.status r.statusText r.jsonBody (some linkId)) := by
            simp [LinkIDClient.update, hval, hkey, hsend, hro]
          rw [hres] at hok
          exact Except.noConfusion hok
        | true => exact ⟨rfl, rfl, r, rfl, hro⟩

/-- Under those conditions, a successful `update` with caching enabled
leaves exactly the pattern-deleted cache. -/
lemma update_cache_eq (cfg : ClientConfig) (cache : MemoryCache ResolutionResult)
    (linkId : String) (transport : Nat → FetchOutcome)
    (hval : validateLinkID linkId = none) (hkey : jsStrFalsy cfg.apiKey = false)
    (r : HttpResponse) (hsend : (makeRequest cfg.retries transport).result = .ok r)
    (hro : r.ok = true) (hcaching : cfg.caching = true) :
    (LinkIDClient.update cfg cache linkId transport).cache
      = cache.deleteMatching ("linkid:" ++ linkId ++ ":*") := by
  simp [LinkIDClient.update, hval, hkey, hsend, hro, hcaching]

/-- A successful `withdraw` implies the identifier validated, an API key
was present, and the response was ok. -/
lemma withdraw_ok_conditions (cfg : ClientConfig) (cache : MemoryCache ResolutionResult)
    (linkId : String) (transport : Nat → FetchOutcome)
    (hok : (LinkIDClient.withdraw cfg cache linkId transport).result = .ok ()) :
    validateLinkID linkId = none ∧ jsStrFalsy cfg.apiKey = false ∧
      ∃ r, (makeRequest cfg.retries transport).result = .ok r ∧ r.ok = true := by
  cases hval : validateLinkID linkId with
  | some m =>
    have hres : (LinkIDClient.withdraw cfg cache linkId transport).result
        = .error (.validation m) := by
      simp [LinkIDClient.withdraw, hval]
    rw [hres] at hok
    exact Except.noConfusion hok
  | none =>
    cases hkey : jsStrFalsy cfg.apiKey with
    | true =>
      have hres : (LinkIDClient.withdraw cfg cache linkId transport).result
          = .error (.validation "API key required for withdrawal") := by
        simp [LinkIDClient.withdraw, hval, hkey]
      rw [hres] at hok
      exact Except.noConfusion hok
    | false =>
      cases hsend : (makeRequest cfg.retries transport).result with
      | error e =>
        have hres : (LinkIDClient.withdraw cfg cache linkId transport).result = .error e := by
          simp [LinkIDClient.withdraw, hval, hkey, hsend]
        rw [hres] at hok
        exact Except.noConfusion hok
      | ok r =>
        cases hro : r.ok with
        | false =>
          have hres : (LinkIDClient.withdraw cfg cache linkId transport).result
              = .error (handleErrorResponse r.status r.statusText r.jsonBody (some linkId)) := by
            simp [LinkIDClient.withdraw, hval, hkey, hsend, hro]
          rw [hres] at hok
          exact Except.noConfusion hok
        | true => exact ⟨rfl, rfl, r, rfl, hro⟩

/-- Under those conditions, a successful `withdraw` with caching enabled
leaves exactly the pattern-deleted cache. -/
lemma withdraw_cache_eq (cfg : ClientConfig) (cache : MemoryCache ResolutionResult)
    (linkId : String) (transport : Nat → FetchOutcome)
    (hval : validateLinkID linkId = none) (hkey : jsStrFalsy cfg.apiKey = false)
    (r : HttpResponse) (hsend : (makeRequest cfg.retries transport).result = .ok r)
    (hro : r.ok = true) (hcaching : cfg.caching = true) :
    (LinkIDClient.withdraw cfg cache linkId transport).cache
      = cache.deleteMatching ("linkid:" ++ linkId ++ ":*") := by
  simp [LinkIDClient.withdraw, hval, hkey, hsend, hro, hcaching]

/-- C6: when `update` (resp. `withdraw`) completes successfully with
caching enabled, every cached resolve entry for that identifier is gone:
the cache lookup of the key generated for that identifier under ANY
options — at any later time — misses, so an immediately subsequent
`resolve` cannot be served the pre-update cached value. -/
theorem update_withdraw_invalidate_variants (cfg : ClientConfig)
    (cache : MemoryCache ResolutionResult) (linkId : String)
    (transport : Nat → FetchOutcome) (opts : ResolutionOptions) (now : Nat)
    (hcaching : cfg.caching = true) :
    ((LinkIDClient.update cfg cache linkId transport).result = .ok () →
        ((LinkIDClient.update cfg cache linkId transport).cache.get
            (generateCacheKey linkId opts) now).1 = none) ∧
    ((LinkIDClient.withdraw cfg cache linkId transport).result = .ok () →
        ((LinkIDClient.withdraw cfg cache linkId transport).cache.get
            (generateCacheKey linkId opts) now).1 = none) := by
  constructor
  · intro hok
    obtain ⟨hval, hkey, r, hsend, hro⟩ := update_ok_conditions cfg cache linkId transport hok
    rw [update_cache_eq cfg cache linkId transport hval hkey r hsend hro hcaching]
    exact get_after_invalidate linkId hval cache opts now
  · intro hok
    obtain ⟨hval, hkey, r, hsend, hro⟩ := withdraw_ok_conditions cfg cache linkId transport hok
    rw [withdraw_cache_eq cfg cache linkId transport hval hkey r hsend hro hcaching]
    exact get_after_invalidate linkId hval cache opts now

/-- C6 witness: a concrete successful update and withdrawal against the
populated fixture cache leave no entry for the identifier. -/
theorem update_withdraw_invalidate_variants_witness :
    ((LinkIDClient.update keyedConfig firstResolve.cache sampleId
        (fun _ => .success okEmptyResp)).cache.get
        (generateCacheKey sampleId {}) 2000).1 = none ∧
    ((LinkIDClient.withdraw keyedConfig firstResolve.cache sampleId
        (fun _ => .success okEmptyResp)).cache.get
        (generateCacheKey sampleId {}) 2000).1 = none :=
  ⟨(update_withdraw_invalidate_variants keyedConfig firstResolve.cache sampleId
      (fun _ => .success okEmptyResp) {} 2000 rfl).1 rfl,
   (update_withdraw_invalidate_variants keyedConfig firstResolve.cache sampleId
      (fun _ => .success okEmptyResp) {} 2000 rfl).2 rfl⟩

/-- Splitting at the first separator: two colon-free bodies followed by a
colon agree exactly when the bodies and the tails agree. -/
lemma colon_split : ∀ (a : List Char) {b x y : List Char},
    (∀ c ∈ a, c ≠ ':') → (∀ c ∈ b, c ≠ ':') →
    a ++ ':' :: x = b ++ ':' :: y → a = b ∧ x = y := by
  intro a
  induction a with
  | nil =>
    intro b x y _ hb h
    cases b with
    | nil => simpa using h
    | cons c b2 =>
      exfalso
      simp only [List.nil_append, List.cons_append, List.cons.injEq] at h
      exact hb c (List.mem_cons_self _ _) h.1.symm
  | cons c a2 ih =>
    intro b x y ha hb h
    cases b with
    | nil =>
      exfalso
      simp only [List.cons_append, List.nil_append, List.cons.injEq] at h
      exact ha c (List.mem_cons_self _ _) h.1
    | cons d b2 =>
      simp only [List.cons_append, List.cons.injEq] at h
      obtain ⟨hcd, h2⟩ := h
      obtain ⟨he, hx⟩ := ih (fun u hu => ha u (List.mem_cons_of_mem _ hu))
        (fun u hu => hb u (List.mem_cons_of_mem _ hu)) h2
      exact ⟨by rw [hcd, he], hx⟩

/-- Peeling one component off a joined key. -/
lemma joinColon_data_cons (s t : String) (rest : List String) :
    (joinColon (s :: t :: rest)).data = s.data ++ ':' :: (joinColon (t :: rest)).data := by
  show (s ++ ":" ++ joinColon (t :: rest)).data = _
  simp [String.data_append, List.append_assoc]

/-- Fully peeled form of a generated cache key. -/
lemma generateCacheKey_data_nested (id : String) (o : ResolutionOptions) :
    (generateCacheKey id o).data
      = "linkid".data ++ ':' :: (id.data ++ ':' :: ((jsOrStr o.format "").data ++ ':' ::
          ((jsOrStr o.language "").data ++ ':' :: ((versionPart o.version).data ++ ':' ::
            (if o.metadata then "1" else "0").data)))) := by
  show (joinColon _).data = _
  rw [joinColon_data_cons, joinColon_data_cons, joinColon_data_cons,
    joinColon_data_cons, joinColon_data_cons]
  rfl

/-- Unpacking `optionsColonFree`. -/
lemma optionsColonFree_spec (o : ResolutionOptions) (h : optionsColonFree o = true) :
    (∀ c ∈ (jsOrStr o.format "").data, c ≠ ':') ∧
    (∀ c ∈ (jsOrStr o.language "").data, c ≠ ':') ∧
    (∀ c ∈ (versionPart o.version).data, c ≠ ':') := by
  simp only [optionsColonFree, Bool.and_eq_true, List.all_eq_true,
    decide_eq_true_eq] at h
  exact ⟨h.1.1, h.1.2, h.2⟩

/-- C7 (amended): key derivation is deterministic, and over colon-free
negotiated components two keys for the same identifier collide exactly
when the options agree after JS falsy normalization (`format`/`language`
with absent and `""` collapsed, `version` rendered with absent and 0 as
the empty component, and the metadata truthiness). -/
theorem generateCacheKey_norm_iff (linkId : String) (o1 o2 : ResolutionOptions)
    (h1 : optionsColonFree o1 = true) (h2 : optionsColonFree o2 = true) :
    generateCacheKey linkId o1 = generateCacheKey linkId o2
      ↔ normOptions o1 = normOptions o2 := by
  obtain ⟨hf1, hl1, hv1⟩ := optionsColonFree_spec o1 h1
  obtain ⟨hf2, hl2, hv2⟩ := optionsColonFree_spec o2 h2
  constructor
  · intro hkeyeq
    have hd := congrArg String.data hkeyeq
    rw [generateCacheKey_data_nested, generateCacheKey_data_nested] at hd
    have hd1 := List.append_cancel_left hd
    injection hd1 with _ hd2
    have hd3 := List.append_cancel_left hd2
    injection hd3 with _ hd4
    obtain ⟨hf, hd5⟩ := colon_split _ hf1 hf2 hd4
    obtain ⟨hl, hd6⟩ := colon_split _ hl1 hl2 hd5
    obtain ⟨hv, hm⟩ := colon_split _ hv1 hv2 hd6
    have hmeta : o1.metadata = o2.metadata := by
      cases b1 : o1.metadata <;> cases b2 : o2.metadata
      · rfl
      · rw [b1, b2] at hm; exact absurd hm (by decide)
      · rw [b1, b2] at hm; exact absurd hm (by decide)
      · rfl
    simp only [normOptions, Prod.mk.injEq]
    exact ⟨String.ext hf, String.ext hl, String.ext hv, hmeta⟩
  · intro hnorm
    have hf : jsOrStr o1.format "" = jsOrStr o2.format "" :=
      congrArg (fun t => t.1) hnorm
    have hl : jsOrStr o1.language "" = jsOrStr o2.language "" :=
      congrArg (fun t => t.2.1) hnorm
    have hv : versionPart o1.version = versionPart o2.version :=
      congrArg (fun t => t.2.2.1) hnorm
    have hb : o1.metadata = o2.metadata :=
      congrArg (fun t => t.2.2.2) hnorm
    simp only [generateCacheKey]
    rw [hf, hl, hv, hb]

/-- C7 witness: two concretely different option records (version 0 versus
absent, same format) normalize identically and indeed yield the same
key. -/
theorem generateCacheKey_norm_iff_witness :
    generateCacheKey sampleId { format := some "pdf", version := some 0 }
      = generateCacheKey sampleId { format := some "pdf" } :=
  (generateCacheKey_norm_iff sampleId { format := some "pdf", version := some 0 }
    { format := some "pdf" } (by decide) (by decide)).mpr (by decide)

/-- C8 counterexample: a `targetUri` with the `ftp` scheme — neither
`http` nor `https` — passes validation and `register` proceeds to the
network (one request, successful result) instead of raising
`ValidationError`. -/
theorem register_ftp_scheme_accepted :
    validateRegistrationRequest { targetUri := some "ftp://example.org/x" } = none ∧
    (LinkIDClient.register keyedConfig { targetUri := some "ftp://example.org/x" }
        (fun _ => .success okEmptyResp)).1 = .ok {} ∧
    (LinkIDClient.register keyedConfig { targetUri := some "ftp://example.org/x" }
        (fun _ => .success okEmptyResp)).2 = 1 := by
  refine ⟨rfl, rfl, rfl⟩

/-- The attempt counter of the request loop never decreases. -/
lemma makeRequestGo_attempts_ge (retries : Nat) (transport : Nat → FetchOutcome) :
    ∀ (fuel attempt made : Nat) (delays : List Nat) (le : Option String),
      made ≤ (makeRequestGo retries transport fuel attempt made delays le).attempts := by
  intro fuel
  induction fuel with
  | zero => intro attempt made delays le; exact le_refl _
  | succ n ih =>
    intro attempt made delays le
    cases htr : transport attempt with
    | success r =>
      simp only [makeRequestGo, htr]
      by_cases h1 : (r.ok || 400 ≤ r.status) = true
      · rw [if_pos h1]
        exact Nat.le_succ _
      · rw [if_neg h1]
        by_cases h2 : (decide (500 ≤ r.status) && decide (attempt < retries)) = true
        · rw [if_pos h2]
          exact le_trans (Nat.le_succ _) (ih _ _ _ _)
        · rw [if_neg h2]
          exact Nat.le_succ _
    | failure msg =>
      simp only [makeRequestGo, htr]
      by_cases h1 : attempt < retries
      · rw [if_pos h1]
        exact le_trans (Nat.le_succ _) (ih _ _ _ _)
      · rw [if_neg h1]
        exact Nat.le_succ _

/-- With at least one configured retry, the request loop issues at least
one network request. -/
lemma makeRequest_attempts_pos (retries : Nat) (transport : Nat → FetchOutcome)
    (h : 1 ≤ retries) : 1 ≤ (makeRequest retries transport).attempts := by
  obtain ⟨n, rfl⟩ : ∃ n, retries = n + 1 := ⟨retries - 1, by omega⟩
  show 1 ≤ (makeRequestGo (n + 1) transport (n + 1) 1 0 [] none).attempts
  cases htr : transport 1 with
  | success r =>
    simp only [makeRequestGo, htr]
    by_cases h1 : (r.ok || 400 ≤ r.status) = true
    · rw [if_pos h1]
    · rw [if_neg h1]
      by_cases h2 : (decide (500 ≤ r.status) && decide (1 < n + 1)) = true
      · rw [if_pos h2]
        exact makeRequestGo_attempts_ge _ _ _ _ _ _ _
      · rw [if_neg h2]
  | failure msg =>
    simp only [makeRequestGo, htr]
    by_cases h1 : 1 < n + 1
    · rw [if_pos h1]
      exact makeRequestGo_attempts_ge _ _ _ _ _ _ _
    · rw [if_neg h1]

/-- All branches of `register` past validation report the transport's
attempt count. -/
lemma register_requests_eq (cfg : ClientConfig) (req : RegistrationRequest)
    (transport : Nat → FetchOutcome)
    (ht : jsStrFalsy req.targetUri = false)
    (hu : jsURLParses (req.targetUri.getD "") = true)
    (hk : jsStrFalsy cfg.apiKey = false) :
    (LinkIDClient.register cfg req transport).2
      = (makeRequest cfg.retries transport).attempts := by
  simp only [LinkIDClient.register, validateRegistrationRequest, ht, hu, hk]
  cases hsend : (makeRequest cfg.retries transport).result with
  | error e => simp
  | ok r =>
    cases hro : r.ok with
    | false => simp [hro]
    | true =>
      cases hjb : r.jsonBody with
      | none => simp [hro, hjb]
      | some b => simp [hro, hjb]

/-- C8 (amended): `register` raises `ValidationError` with zero network
requests whenever the `targetUri` is falsy, fails to parse as an absolute
URL, or no API key is configured; when all three conditions hold (any
scheme accepted), at least one network request is issued — the
pre-network gate checks URL well-formedness and key presence only, never
the scheme. -/
theorem register_validation_gate (cfg : ClientConfig) (req : RegistrationRequest)
    (transport : Nat → FetchOutcome) (hr : 1 ≤ cfg.retries) :
    ((jsStrFalsy req.targetUri = true ∨ jsURLParses (req.targetUri.getD "") = false
        ∨ jsStrFalsy cfg.apiKey = true) →
      ∃ m, (LinkIDClient.register cfg req transport).1 = .error (.validation m) ∧
        (LinkIDClient.register cfg req transport).2 = 0) ∧
    (jsStrFalsy req.targetUri = false → jsURLParses (req.targetUri.getD "") = true →
      jsStrFalsy cfg.apiKey = false →
      1 ≤ (LinkIDClient.register cfg req transport).2) := by
  constructor
  · intro hcond
    cases ht : jsStrFalsy req.targetUri with
    | true =>
      refine ⟨"targetUri is required and must be a string", ?_, ?_⟩ <;>
        simp [LinkIDClient.register, validateRegistrationRequest, ht]
    | false =>
      cases hu : jsURLParses (req.targetUri.getD "") with
      | false =>
        refine ⟨"targetUri must be a valid URL", ?_, ?_⟩ <;>
          simp [LinkIDClient.register, validateRegistrationRequest, ht, hu]
      | true =>
        cases hk : jsStrFalsy cfg.apiKey with
        | true =>
          refine ⟨"API key required for registration", ?_, ?_⟩ <;>
            simp [LinkIDClient.register, validateRegistrationRequest, ht, hu, hk]
        | false =>
          exfalso
          rcases hcond with h | h | h
          · rw [ht] at h; exact Bool.noConfusion h
          · rw [hu] at h; exact Bool.noConfusion h
          · rw [hk] at h; exact Bool.noConfusion h
  · intro ht hu hk
    rw [register_requests_eq cfg req transport ht hu hk]
    exact makeRequest_attempts_pos cfg.retries transport hr

/-- C8 witness: the gate applied at a concrete configuration with no API
key — a validation error with zero requests. -/
theorem register_validation_gate_witness :
    ∃ m, (LinkIDClient.register {} { targetUri := some "https://example.org/a.pdf" }
        (fun _ => .success okEmptyResp)).1 = .error (.validation m) ∧
      (LinkIDClient.register {} { targetUri := some "https://example.org/a.pdf" }
        (fun _ => .success okEmptyResp)).2 = 0 :=
  (register_validation_gate {} { targetUri := some "https://example.org/a.pdf" }
    (fun _ => .success okEmptyResp) (by decide)).1 (Or.inr (Or.inr rfl))
